import Mathlib

/-!
Verification of the Toast API MCP server (src/server.py).

We shallowly embed the parsed YAML document trees, the spec-fetching
pipeline with its module-level cache, and the query operations of
`handle_call_tool` (endpoint listing, endpoint lookup, recursive search,
serialization truncation), and prove the specified properties about them.
-/

namespace ToastMcp

/-- The parsed form of a fetched specification: Python values as produced
by `yaml.safe_load` — dicts (string keys, as in the documents), lists and
scalars (str, int, bool, None). -/
inductive Tree where
  | null : Tree
  | bool (b : Bool) : Tree
  | num (n : Int) : Tree
  | str (s : String) : Tree
  | arr (items : List Tree) : Tree
  | dict (kvs : List (String × Tree)) : Tree
deriving Repr

/-- Contiguous-sublist test on character lists. -/
def charsContain (hay needle : List Char) : Bool :=
  match hay with
  | [] => needle.isEmpty
  | _ :: t => needle.isPrefixOf hay || charsContain t needle

/-- Substring test: Python `needle in hay` on str. -/
def strContains (hay needle : String) : Bool :=
  charsContain hay.toList needle.toList

/-- Python `str.lower()` (ASCII, as in the searched terms and
documents). -/
def pyLower (s : String) : String := .mk (s.toList.map Char.toLower)

/-- Python `str.upper()` as used on HTTP method names. -/
def pyUpper (s : String) : String := .mk (s.toList.map Char.toUpper)

/-- Python `repr` of a str: quote with a single quote unless the string
contains one and no double quote (escape sequences beyond the quote
choice are not modelled; no searched string contains either quote). -/
def pyReprString (s : String) : String :=
  if strContains s "\x27" && !strContains s "\"" then
    "\"" ++ s ++ "\""
  else
    "\x27" ++ s ++ "\x27"

mutual

/-- Python `repr` of a value (used for elements inside containers). -/
def pyRepr : Tree → String
  | .null => "None"
  | .bool b => if b then "True" else "False"
  | .num n => toString n
  | .str s => pyReprString s
  | .arr items => "[" ++ pyReprList items ++ "]"
  | .dict kvs => "\x7b" ++ pyReprDict kvs ++ "\x7d"
termination_by structural t => t

def pyReprList : List Tree → String
  | [] => ""
  | [t] => pyRepr t
  | t :: ts => pyRepr t ++ ", " ++ pyReprList ts
termination_by structural l => l

def pyReprDict : List (String × Tree) → String
  | [] => ""
  | [(k, v)] => pyReprString k ++ ": " ++ pyRepr v
  | (k, v) :: kvs => pyReprString k ++ ": " ++ pyRepr v ++ ", " ++ pyReprDict kvs
termination_by structural l => l

end

/-- Python `str` of a value: identical to `repr` except on str itself. -/
def pyStr : Tree → String
  | .str s => s
  | t => pyRepr t

/-- One search result emitted by `search_recursive`: the dotted/bracketed
locator, the matching key when inside a dict, and the value (composite
values are replaced by a type placeholder string). -/
structure SearchHit where
  path : String
  key : Option String
  value : Tree
deriving Repr

/-- The value field stored in a hit:
`value if not isinstance(value, (dict, list)) else f"<{type(value).__name__}>"`. -/
def hitValue : Tree → Tree
  | .dict _ => .str "<dict>"
  | .arr _ => .str "<list>"
  | t => t

/-- Whether a value is composite (`isinstance(value, (dict, list))`). -/
def isComposite : Tree → Bool
  | .dict _ => true
  | .arr _ => true
  | _ => false

mutual

/-- `search_recursive(obj, path)` from the `search_toast_spec` branch.
`term` is the already-lowercased search term. -/
def search_recursive (term : String) : Tree → String → List SearchHit
  | .dict kvs, path => searchDict term kvs path
  | .arr items, path => searchList term items path 0
  | _, _ => []
termination_by structural t _ => t

def searchDict (term : String) : List (String × Tree) → String → List SearchHit
  | [], _ => []
  | (key, value) :: rest, path =>
    let current_path := if path = "" then key else path ++ "." ++ key
    let here :=
      if strContains (pyLower (pyStr (.str key))) term
          || strContains (pyLower (pyStr value)) term then
        [{ path := current_path, key := some key, value := hitValue value }]
      else []
    let below :=
      if isComposite value then search_recursive term value current_path else []
    here ++ below ++ searchDict term rest path
termination_by structural l _ => l

def searchList (term : String) : List Tree → String → Nat → List SearchHit
  | [], _, _ => []
  | item :: rest, path, i =>
    let current_path := path ++ "[" ++ toString i ++ "]"
    let here :=
      if strContains (pyLower (pyStr item)) term then
        [{ path := current_path, key := none, value := hitValue item }]
      else []
    let below :=
      if isComposite item then search_recursive term item current_path else []
    here ++ below ++ searchList term rest path (i + 1)
termination_by structural l _ _ => l

end

mutual

/-- Python `==` on values (used by `in` on lists). -/
def treeBeq : Tree → Tree → Bool
  | .null, .null => true
  | .bool a, .bool b => a == b
  | .num a, .num b => a == b
  | .str a, .str b => a == b
  | .arr a, .arr b => treeListBeq a b
  | .dict a, .dict b => treeDictBeq a b
  | _, _ => false
termination_by structural a _ => a

def treeListBeq : List Tree → List Tree → Bool
  | [], [] => true
  | a :: as, b :: bs => treeBeq a b && treeListBeq as bs
  | _, _ => false
termination_by structural a _ => a

def treeDictBeq : List (String × Tree) → List (String × Tree) → Bool
  | [], [] => true
  | (ka, va) :: as, (kb, vb) :: bs => ka == kb && treeBeq va vb && treeDictBeq as bs
  | _, _ => false
termination_by structural a _ => a

end

/-- The Python `type(x).__name__` of a value. -/
def typeName : Tree → String
  | .null => "NoneType"
  | .bool _ => "bool"
  | .num _ => "int"
  | .str _ => "str"
  | .arr _ => "list"
  | .dict _ => "dict"

/-- Failures raised by the server. The first three are raised by
`fetch_yaml_spec`, `endpointNotFound` by the endpoint-details branch,
`unknownTool` by the final else of the dispatcher, and `typeError` models a
Python `TypeError` escaping from an operation applied to a value of the
wrong shape (undocumented, no dedicated error kind in the source). -/
inductive Err where
  | unknownSpec (name : String) (available : List String)
  | fetchFailed (url : String) (reason : String)
  | parseFailed (url : String) (reason : String)
  | endpointNotFound (path : String) (specName : String)
  | unknownTool (name : String)
  | typeError (msg : String)
deriving Repr

/-- First-match association lookup (Python dict read; keys are unique). -/
def alookup {α : Type} : List (String × α) → String → Option α
  | [], _ => none
  | (k, v) :: rest, key => if k = key then some v else alookup rest key

/-- Python dict assignment `d[k] = v`: overwrite in place, else append. -/
def dictInsert {α : Type} (d : List (String × α)) (key : String) (v : α) :
    List (String × α) :=
  if d.any (fun kv => kv.1 = key) then
    d.map (fun kv => if kv.1 = key then (key, v) else kv)
  else
    d ++ [(key, v)]

/-- Python `needle in container` for a string needle: key membership on a
dict, element membership on a list, substring on a str, and a `TypeError`
on any non-iterable value. -/
def py_in (needle : String) : Tree → Except Err Bool
  | .dict kvs => .ok (kvs.any (fun kv => kv.1 = needle))
  | .arr items => .ok (items.any (fun it => treeBeq it (.str needle)))
  | .str s => .ok (strContains s needle)
  | t => .error (.typeError ("argument of type \x27" ++ typeName t ++ "\x27 is not iterable"))

/-- Python subscript `container[key]` with a string key: dict lookup
(`KeyError` if absent), `TypeError` on anything else. -/
def py_index (t : Tree) (key : String) : Except Err Tree :=
  match t with
  | .dict kvs =>
    match alookup kvs key with
    | some v => .ok v
    | none => .error (.typeError ("KeyError: \x27" ++ key ++ "\x27"))
  | t => .error (.typeError ("\x27" ++ typeName t ++ "\x27 object is not subscriptable"))

/-- Python `x.items()`: dict items, `AttributeError` otherwise (modelled
as the same escaping-exception kind). -/
def py_items : Tree → Except Err (List (String × Tree))
  | .dict kvs => .ok kvs
  | t => .error (.typeError ("\x27" ++ typeName t ++ "\x27 object has no attribute \x27items\x27"))

/-- `details.get(key, "")`: the stored value, defaulting to the empty
string. -/
def pyGetD (kvs : List (String × Tree)) (key : String) : Tree :=
  (alookup kvs key).getD (.str "")

/-- One element of the `get_toast_endpoints` result. `summary` and
`description` hold whatever `details.get` returned (a string in
well-formed documents, defaulting to `""`). -/
structure Endpoint where
  path : String
  method : String
  summary : Tree
  description : Tree
deriving Repr

/-- The endpoint-listing logic of the `get_toast_endpoints` branch:
if `"paths" in spec_data`, iterate `spec_data["paths"].items()`, then each
per-path `methods.items()`, keeping only entries whose value is a dict. -/
def extract_endpoints (spec_data : Tree) : Except Err (List Endpoint) := do
  let hasPaths ← py_in "paths" spec_data
  if hasPaths then
    let pathsVal ← py_index spec_data "paths"
    let pathItems ← py_items pathsVal
    pathItems.foldlM
      (fun acc pm => do
        let ms ← py_items pm.2
        pure (acc ++ ms.filterMap (fun md =>
          match md.2 with
          | .dict details =>
            some { path := pm.1, method := pyUpper md.1,
                   summary := pyGetD details "summary",
                   description := pyGetD details "description" }
          | _ => none)))
      []
  else
    pure []

/-- The `get_toast_endpoint_details` branch: raise
`ValueError(f"Endpoint {endpoint_path} not found in {spec_name} specification")`
when `"paths" not in spec_data or endpoint_path not in spec_data["paths"]`
(short-circuit), else return `spec_data["paths"][endpoint_path]`. -/
def get_endpoint_details (spec_data : Tree) (spec_name endpoint_path : String) :
    Except Err Tree := do
  let hasPaths ← py_in "paths" spec_data
  let missing ←
    if hasPaths then do
      let pathsVal ← py_index spec_data "paths"
      let mem ← py_in endpoint_path pathsVal
      pure (!mem)
    else
      pure true
  if missing then
    .error (.endpointNotFound endpoint_path spec_name)
  else do
    let pathsVal ← py_index spec_data "paths"
    py_index pathsVal endpoint_path

/-- The serialization step of the `search_toast_spec` branch:
`json.dumps(search_results[:50], ...)` plus
`f"... and {len(search_results) - 50} more results"` when more than 50.
Modelled as the truncated hit list together with the omitted count of the
optional trailing note. -/
def serialize_search (results : List SearchHit) : List SearchHit × Option Nat :=
  (results.take 50,
   if results.length > 50 then some (results.length - 50) else none)

/-- The module-level `TOAST_SPECS` table: specification name → URL. -/
def TOAST_SPECS : List (String × String) :=
  [("reporting", "https://doc.toasttab.com/toast-api-specifications/toast-reporting-api.yaml"),
   ("authentication", "https://doc.toasttab.com/toast-api-specifications/toast-authentication-api.yaml"),
   ("cashmgmt", "https://doc.toasttab.com/toast-api-specifications/toast-cashmgmt-api.yaml"),
   ("config", "https://doc.toasttab.com/toast-api-specifications/toast-config-api.yaml"),
   ("ccpartner", "https://doc.toasttab.com/toast-api-specifications/toast-ccpartner-api.yaml"),
   ("kitchen", "https://doc.toasttab.com/openapi/kitchen/overview/"),
   ("labor", "https://doc.toasttab.com/openapi/labor/overview/"),
   ("menus", "https://doc.toasttab.com/openapi/menus/overview/"),
   ("menus-v3", "https://doc.toasttab.com/toast-api-specifications/toast-menus-api-v3.yaml"),
   ("ordermgmt-config", "https://doc.toasttab.com/toast-api-specifications/toast-ordermgmt-config-api-docs.yaml"),
   ("orders", "https://doc.toasttab.com/toast-api-specifications/toast-orders-api.yaml"),
   ("packaging", "https://doc.toasttab.com/openapi/packaging/overview/"),
   ("partners", "https://doc.toasttab.com/openapi/partners/overview/"),
   ("rx-availability", "https://doc.toasttab.com/openapi/rx.availability.service/overview/"),
   ("restaurants", "https://doc.toasttab.com/toast-api-specifications/toast-restaurants-api.yaml"),
   ("stock", "https://doc.toasttab.com/toast-api-specifications/toast-stock-api.yaml"),
   ("giftcard-integration", "https://doc.toasttab.com/toast-api-specifications/toast-integrations-giftcard-api.yaml"),
   ("loyalty-integration", "https://doc.toasttab.com/toast-api-specifications/toast-integrations-loyalty-api.yaml"),
   ("tender-integration", "https://doc.toasttab.com/toast-api-specifications/toast-tender-api.yaml")]

/-- The key list of the catalog, as interpolated into the `UnknownSpecError`
message (`TOAST_SPECS.keys()` in declaration order). -/
def catalogKeys : List String := TOAST_SPECS.map Prod.fst

/-- The module-level `specs_cache` dict: spec name → parsed tree. -/
abbrev Cache := List (String × Tree)

/-- Outcome of one `fetch_yaml_spec` call: its return value or raised
error, the cache afterwards, and how many network requests
(`requests.get`) and parses (`yaml.safe_load`) the call performed. -/
structure FetchOut where
  result : Except Err Tree
  cache : Cache
  netCalls : Nat
  parseCalls : Nat
deriving Repr

/-- `fetch_yaml_spec(spec_name)`. The transport (`requests.get`, including
`raise_for_status`) is the function `net` from URL to raw text or a
failure reason; the YAML parser (`yaml.safe_load`) is the function
`parse` from raw text to tree or a failure reason. Order as in the
source: cache hit first, then catalog check, then fetch, parse, cache
store. -/
def fetch_yaml_spec (net : String → Except String String)
    (parse : String → Except String Tree)
    (cache : Cache) (spec_name : String) : FetchOut :=
  match alookup cache spec_name with
  | some t => ⟨.ok t, cache, 0, 0⟩
  | none =>
    match alookup TOAST_SPECS spec_name with
    | none => ⟨.error (.unknownSpec spec_name catalogKeys), cache, 0, 0⟩
    | some url =>
      match net url with
      | .error e => ⟨.error (.fetchFailed url e), cache, 1, 0⟩
      | .ok text =>
        match parse text with
        | .error e => ⟨.error (.parseFailed url e), cache, 1, 1⟩
        | .ok tree => ⟨.ok tree, dictInsert cache spec_name tree, 1, 1⟩

/-- JSON tokens, the output alphabet of the `json.dumps` serialization of
a tree (2-space indentation being whitespace, the token stream is the
structural content of the payload). -/
inductive JTok where
  | lbrace | rbrace | lbrack | rbrack | colon | comma
  | jnull
  | jbool (b : Bool)
  | jnum (n : Int)
  | jstr (s : String)
deriving Repr, DecidableEq

mutual

/-- `json.dumps` of a tree, as its token stream. -/
def dumps : Tree → List JTok
  | .null => [.jnull]
  | .bool b => [.jbool b]
  | .num n => [.jnum n]
  | .str s => [.jstr s]
  | .arr items => .lbrack :: dumpsList items ++ [.rbrack]
  | .dict kvs => .lbrace :: dumpsDict kvs ++ [.rbrace]
termination_by structural t => t

def dumpsList : List Tree → List JTok
  | [] => []
  | [t] => dumps t
  | t :: ts => dumps t ++ .comma :: dumpsList ts
termination_by structural l => l

def dumpsDict : List (String × Tree) → List JTok
  | [] => []
  | [(k, v)] => .jstr k :: .colon :: dumps v
  | (k, v) :: kvs => .jstr k :: .colon :: dumps v ++ .comma :: dumpsDict kvs
termination_by structural l => l

end

mutual

/-- A JSON parser over the token stream (fuel-indexed recursive descent);
`parseVal fuel toks` returns the parsed value and the leftover tokens. -/
def parseVal : Nat → List JTok → Option (Tree × List JTok)
  | 0, _ => none
  | fuel + 1, toks =>
    match toks with
    | .jnull :: rest => some (.null, rest)
    | .jbool b :: rest => some (.bool b, rest)
    | .jnum n :: rest => some (.num n, rest)
    | .jstr s :: rest => some (.str s, rest)
    | .lbrack :: rest =>
      match parseItems fuel rest with
      | some (items, rest2) => some (.arr items, rest2)
      | none => none
    | .lbrace :: rest =>
      match parseFields fuel rest with
      | some (kvs, rest2) => some (.dict kvs, rest2)
      | none => none
    | _ => none

/-- Parse a comma-separated value list up to and including the closing
bracket. -/
def parseItems : Nat → List JTok → Option (List Tree × List JTok)
  | 0, _ => none
  | _ + 1, .rbrack :: rest => some ([], rest)
  | fuel + 1, toks =>
    match parseVal fuel toks with
    | some (t, .comma :: rest) =>
      match parseItems fuel rest with
      | some (ts, rest2) => some (t :: ts, rest2)
      | none => none
    | some (t, .rbrack :: rest) => some ([t], rest)
    | _ => none

/-- Parse a comma-separated `"key": value` list up to and including the
closing brace. -/
def parseFields : Nat → List JTok → Option (List (String × Tree) × List JTok)
  | 0, _ => none
  | _ + 1, .rbrace :: rest => some ([], rest)
  | fuel + 1, .jstr k :: .colon :: toks =>
    match parseVal fuel toks with
    | some (v, .comma :: rest) =>
      match parseFields fuel rest with
      | some (kvs, rest2) => some ((k, v) :: kvs, rest2)
      | none => none
    | some (v, .rbrace :: rest) => some ([(k, v)], rest)
    | _ => none
  | _, _ => none

end

mutual

/-- Structural size of a tree, used as the fuel bound of the parser. -/
def treeSize : Tree → Nat
  | .null => 1
  | .bool _ => 1
  | .num _ => 1
  | .str _ => 1
  | .arr items => 1 + treeListSize items
  | .dict kvs => 1 + treeDictSize kvs
termination_by structural t => t

def treeListSize : List Tree → Nat
  | [] => 1
  | t :: ts => 1 + treeSize t + treeListSize ts
termination_by structural l => l

def treeDictSize : List (String × Tree) → Nat
  | [] => 1
  | (_, v) :: kvs => 1 + treeSize v + treeDictSize kvs
termination_by structural l => l

end

/-- The argument bundle of a tool call (the string arguments the schemas
declare; missing-argument handling is outside the modelled behavior). -/
structure ToolArgs where
  spec_name : String := ""
  endpoint_path : String := ""
  search_term : String := ""
deriving Repr

/-- Successful tool-call payloads, before rendering as JSON text:
the catalog listing, a spec dump (as its `json.dumps` token stream), the
endpoint list, the raw sub-tree of an endpoint, or the truncated search
results with the optional omitted-count note. -/
inductive ToolResult where
  | specsList (entries : List (String × String))
  | specPayload (toks : List JTok)
  | endpoints (es : List Endpoint)
  | endpointDetail (t : Tree)
  | searchResults (hits : List SearchHit) (omitted : Option Nat)
deriving Repr

/-- Outcome of one `handle_call_tool` invocation: result or raised error,
and the `specs_cache` afterwards. -/
structure CallOut where
  result : Except Err ToolResult
  cache : Cache
deriving Repr

/-- `handle_call_tool(name, arguments)` over the five tools, with the
module-level cache passed explicitly and `net`/`parse` the transport and
YAML parser as in `fetch_yaml_spec`. -/
def handle_call_tool (net : String → Except String String)
    (parse : String → Except String Tree)
    (cache : Cache) (name : String) (args : ToolArgs) : CallOut :=
  if name = "list_toast_specs" then
    ⟨.ok (.specsList TOAST_SPECS), cache⟩
  else if name = "get_toast_spec" then
    let f := fetch_yaml_spec net parse cache args.spec_name
    match f.result with
    | .error e => ⟨.error e, f.cache⟩
    | .ok tree => ⟨.ok (.specPayload (dumps tree)), f.cache⟩
  else if name = "get_toast_endpoints" then
    let f := fetch_yaml_spec net parse cache args.spec_name
    match f.result with
    | .error e => ⟨.error e, f.cache⟩
    | .ok tree =>
      match extract_endpoints tree with
      | .error e => ⟨.error e, f.cache⟩
      | .ok es => ⟨.ok (.endpoints es), f.cache⟩
  else if name = "get_toast_endpoint_details" then
    let f := fetch_yaml_spec net parse cache args.spec_name
    match f.result with
    | .error e => ⟨.error e, f.cache⟩
    | .ok tree =>
      match get_endpoint_details tree args.spec_name args.endpoint_path with
      | .error e => ⟨.error e, f.cache⟩
      | .ok detail => ⟨.ok (.endpointDetail detail), f.cache⟩
  else if name = "search_toast_spec" then
    let term := pyLower args.search_term
    let f := fetch_yaml_spec net parse cache args.spec_name
    match f.result with
    | .error e => ⟨.error e, f.cache⟩
    | .ok tree =>
      let search_results := search_recursive term tree ""
      let out := serialize_search search_results
      ⟨.ok (.searchResults out.1 out.2), f.cache⟩
  else
    ⟨.error (.unknownTool name), cache⟩

/-! ## Concrete documents used by the explicit claims -/

/-- The search example `{"a": {"foo": 1}, "b": ["nofoo", "bar"]}`. -/
def searchExampleDoc : Tree :=
  .dict [("a", .dict [("foo", .num 1)]),
         ("b", .arr [.str "nofoo", .str "bar"])]

/-- The endpoint-listing example
`{"paths": {"/v2/reports": {"get": {"summary": "S"}, "parameters": ["x"]}}}`. -/
def endpointsExampleDoc : Tree :=
  .dict [("paths", .dict
    [("/v2/reports", .dict
      [("get", .dict [("summary", .str "S")]),
       ("parameters", .arr [.str "x"])])])]

/-! ## Helper lemmas -/

theorem alookup_none_iff_not_anyKey {α : Type} (d : List (String × α)) (k : String) :
    alookup d k = none ↔ d.any (fun kv => kv.1 = k) = false := by
  induction d with
  | nil => simp [alookup]
  | cons hd tl ih =>
    by_cases h : hd.1 = k
    · simp [alookup, h]
    · simp [alookup, h, ih]

/-! ## Claim theorems -/

/-- C1 counterexample: on `{"a": {"foo": 1}, "b": ["nofoo", "bar"]}` the
search for "foo" emits four hits, at locators `a`, `a.foo`, `b`, `b[0]` —
in particular a hit at locator `a` does occur, because matching
stringifies the composite value with its full contents. -/
theorem search_example_counterexample :
    (search_recursive "foo" searchExampleDoc "").map SearchHit.path
      = ["a", "a.foo", "b", "b[0]"] ∧
    "a" ∈ (search_recursive "foo" searchExampleDoc "").map SearchHit.path := by
  refine ⟨by decide, ?_⟩
  decide

/-- C1 (amended): `search(tree, "foo")` on
`{"a": {"foo": 1}, "b": ["nofoo", "bar"]}` yields exactly four hits in
this order: at `a` (the mapping value stringifies with full contents
with full contents, which contain "foo"), at `a.foo` (key matches), at `b`
(the sequence value stringifies with full contents, which contain
"foo" inside "nofoo"), and at `b[0]` (value "nofoo" contains "foo");
the type placeholder is used only for the reported value field of a hit,
never for matching. -/
theorem search_example_hits :
    search_recursive "foo" searchExampleDoc ""
      = [{ path := "a", key := some "a", value := .str "<dict>" },
         { path := "a.foo", key := some "foo", value := .num 1 },
         { path := "b", key := some "b", value := .str "<list>" },
         { path := "b[0]", key := none, value := .str "nofoo" }] := by
  rfl

/-- C5: `listEndpoints` is tolerant: on a root mapping without a `paths`
key it returns the empty list, and on
`{"paths": {"/v2/reports": {"get": {"summary": "S"}, "parameters": ["x"]}}}`
it returns exactly one endpoint `{path: "/v2/reports", method: "GET",
summary: "S", description: ""}` — the non-mapping `parameters` sibling is
skipped, the method is upper-cased, and the absent description defaults
to the empty string. -/
theorem listEndpoints_tolerant (kvs : List (String × Tree))
    (h : alookup kvs "paths" = none) :
    extract_endpoints (.dict kvs) = .ok [] ∧
    extract_endpoints endpointsExampleDoc
      = .ok [{ path := "/v2/reports", method := "GET",
               summary := .str "S", description := .str "" }] := by
  constructor
  · have hany := (alookup_none_iff_not_anyKey kvs "paths").mp h
    simp only [extract_endpoints, py_in, hany]
    rfl
  · rfl

/-- C5 witness: the two parts at concrete inputs. -/
theorem listEndpoints_tolerant_witness :
    extract_endpoints (.dict [("info", .str "i")]) = .ok [] ∧
    extract_endpoints endpointsExampleDoc
      = .ok [{ path := "/v2/reports", method := "GET",
               summary := .str "S", description := .str "" }] :=
  listEndpoints_tolerant [("info", .str "i")] rfl

/-- C7: the serialized search result keeps at most the first 50 hits of
the full ordered result: at 73 hits it is the first 50 in order plus a
trailing note of 23 more; at 50 or fewer it is the whole list with no
note. -/
theorem search_truncation (results : List SearchHit) :
    (results.length = 73 →
      serialize_search results = (results.take 50, some 23)) ∧
    (results.length ≤ 50 →
      serialize_search results = (results, none)) := by
  constructor
  · intro h
    simp [serialize_search, h]
  · intro h
    simp [serialize_search, List.take_of_length_le h, Nat.not_lt.mpr h]

theorem alookup_some_any {α : Type} {d : List (String × α)} {k : String} {v : α}
    (h : alookup d k = some v) : d.any (fun kv => kv.1 = k) = true := by
  induction d with
  | nil => simp [alookup] at h
  | cons hd tl ih =>
    by_cases hk : hd.1 = k
    · simp [hk]
    · simp only [alookup, hk, if_neg hk] at h
      simp [List.any_cons, ih h]

theorem alookup_append_new {α : Type} (d : List (String × α)) (k : String) (v : α)
    (h : d.any (fun kv => kv.1 = k) = false) :
    alookup (d ++ [(k, v)]) k = some v := by
  induction d with
  | nil => simp [alookup]
  | cons hd tl ih =>
    simp only [List.any_cons, Bool.or_eq_false_iff] at h
    have hk : ¬ hd.1 = k := by simpa using h.1
    simp only [List.cons_append, alookup, if_neg hk]
    exact ih h.2

theorem alookup_overwrite {α : Type} (d : List (String × α)) (k : String) (v : α)
    (h : d.any (fun kv => kv.1 = k) = true) :
    alookup (d.map (fun kv => if kv.1 = k then (k, v) else kv)) k = some v := by
  induction d with
  | nil => simp at h
  | cons hd tl ih =>
    simp only [List.map_cons]
    by_cases hk : hd.1 = k
    · rw [if_pos hk]
      simp [alookup]
    · rw [if_neg hk]
      simp only [List.any_cons, Bool.or_eq_true_iff] at h
      rcases h with h | h
      · exact absurd (by simpa using h) hk
      · simp only [alookup, if_neg hk]
        exact ih h

/-- Inserting a binding makes it visible to lookup. -/
theorem alookup_dictInsert_self {α : Type} (d : List (String × α)) (k : String) (v : α) :
    alookup (dictInsert d k v) k = some v := by
  unfold dictInsert
  by_cases h : d.any (fun kv => kv.1 = k) = true
  · simp only [h, if_true]
    exact alookup_overwrite d k v h
  · have h0 : d.any (fun kv => kv.1 = k) = false := by
      cases hb : d.any (fun kv => kv.1 = k) with
      | false => rfl
      | true => exact absurd hb h
    simp only [h0, Bool.false_eq_true, if_false]
    exact alookup_append_new d k v h0

theorem alookup_map_other {α : Type} (d : List (String × α)) (key k : String)
    (v : α) (hne : key ≠ k) :
    alookup (d.map (fun kv => if kv.1 = key then (key, v) else kv)) k
      = alookup d k := by
  induction d with
  | nil => simp
  | cons hd tl ih =>
    simp only [List.map_cons]
    by_cases hk : hd.1 = key
    · rw [if_pos hk]
      have h1 : ¬ (key = k) := hne
      have h2 : ¬ (hd.1 = k) := fun hcon => hne (hk ▸ hcon)
      simp only [alookup, if_neg h1, if_neg h2]
      exact ih
    · rw [if_neg hk]
      by_cases hk2 : hd.1 = k
      · simp [alookup, hk2]
      · simp only [alookup, if_neg hk2]
        exact ih

theorem alookup_append_other {α : Type} (d : List (String × α)) (key k : String)
    (v : α) (hne : key ≠ k) :
    alookup (d ++ [(key, v)]) k = alookup d k := by
  induction d with
  | nil => simp [alookup, hne]
  | cons hd tl ih =>
    by_cases hk : hd.1 = k
    · simp [alookup, hk]
    · simp only [List.cons_append, alookup, if_neg hk]
      exact ih

/-- Inserting one binding leaves every other key unchanged. -/
theorem alookup_dictInsert_other {α : Type} (d : List (String × α)) (key k : String)
    (v : α) (hne : key ≠ k) :
    alookup (dictInsert d key v) k = alookup d k := by
  unfold dictInsert
  by_cases h : d.any (fun kv => kv.1 = key) = true
  · simp only [h, if_true]
    exact alookup_map_other d key k v hne
  · have h0 : d.any (fun kv => kv.1 = key) = false := by
      cases hb : d.any (fun kv => kv.1 = key) with
      | false => rfl
      | true => exact absurd hb h
    simp only [h0, Bool.false_eq_true, if_false]
    exact alookup_append_other d key k v hne

/-- C2: if a `fetch_yaml_spec(id)` call succeeds with tree `t`, the next
call with the resulting cache returns the structurally equal tree `t`
again, leaves the cache as is, and performs no network request and no
parse (pure cache hit). -/
theorem fetch_second_call_cached (net : String → Except String String)
    (parse : String → Except String Tree) (cache : Cache) (id : String) (t : Tree)
    (h : (fetch_yaml_spec net parse cache id).result = .ok t) :
    fetch_yaml_spec net parse (fetch_yaml_spec net parse cache id).cache id
      = ⟨.ok t, (fetch_yaml_spec net parse cache id).cache, 0, 0⟩ := by
  unfold fetch_yaml_spec at h ⊢
  cases hc : alookup cache id with
  | some t0 =>
    simp only [hc] at h ⊢
    cases h
    simp [hc]
  | none =>
    simp only [hc] at h ⊢
    cases hk : alookup TOAST_SPECS id with
    | none => simp [hk] at h
    | some url =>
      simp only [hk] at h ⊢
      cases hn : net url with
      | error e => simp [hn] at h
      | ok text =>
        simp only [hn] at h ⊢
        cases hp : parse text with
        | error e => simp [hp] at h
        | ok tree =>
          simp only [hp] at h ⊢
          cases h
          simp [alookup_dictInsert_self]

/-- C2 witness: a stub transport and parser; fetching "orders" twice from
an empty cache hits the cache the second time. -/
theorem fetch_second_call_cached_witness :
    fetch_yaml_spec (fun _ => .ok "raw") (fun _ => .ok .null)
        (fetch_yaml_spec (fun _ => .ok "raw") (fun _ => .ok .null) [] "orders").cache
        "orders"
      = ⟨.ok .null,
         (fetch_yaml_spec (fun _ => .ok "raw") (fun _ => .ok .null) [] "orders").cache,
         0, 0⟩ :=
  fetch_second_call_cached (fun _ => .ok "raw") (fun _ => .ok .null) [] "orders" .null rfl

/-- C3: for an identifier that is neither cached nor a catalog key,
`fetch_yaml_spec` raises the unknown-spec `ValueError` carrying the
requested identifier and the full key list of the catalog, touching
neither the network nor the cache. -/
theorem fetch_unknown_spec (net : String → Except String String)
    (parse : String → Except String Tree) (cache : Cache) (id : String)
    (hc : alookup cache id = none) (hk : alookup TOAST_SPECS id = none) :
    fetch_yaml_spec net parse cache id
      = ⟨.error (.unknownSpec id catalogKeys), cache, 0, 0⟩ := by
  unfold fetch_yaml_spec
  simp [hc, hk]

/-- C3 witness: fetching the identifier "nope" from an empty cache. -/
theorem fetch_unknown_spec_witness :
    fetch_yaml_spec (fun _ => .ok "raw") (fun _ => .ok .null) [] "nope"
      = ⟨.error (.unknownSpec "nope" catalogKeys), [], 0, 0⟩ :=
  fetch_unknown_spec (fun _ => .ok "raw") (fun _ => .ok .null) [] "nope" rfl rfl

/-- C4: a failing `fetch_yaml_spec` call (unknown spec, transport failure
or parse failure) leaves the cache unchanged, and in particular leaves no
entry for the requested identifier, so a later request for it runs the
fetch again. -/
theorem fetch_failure_cache_unchanged (net : String → Except String String)
    (parse : String → Except String Tree) (cache : Cache) (id : String) (e : Err)
    (h : (fetch_yaml_spec net parse cache id).result = .error e) :
    (fetch_yaml_spec net parse cache id).cache = cache ∧
    alookup (fetch_yaml_spec net parse cache id).cache id = none := by
  unfold fetch_yaml_spec at h ⊢
  cases hc : alookup cache id with
  | some t0 => simp [hc] at h
  | none =>
    simp only [hc] at h ⊢
    cases hk : alookup TOAST_SPECS id with
    | none => simp [hc]
    | some url =>
      simp only [hk] at h ⊢
      cases hn : net url with
      | error er => simp [hc]
      | ok text =>
        simp only [hn] at h ⊢
        cases hp : parse text with
        | error er => simp [hc]
        | ok tree => simp [hp] at h

/-- C4 witness: a transport that times out; fetching "orders" fails and
the cache stays empty. -/
theorem fetch_failure_cache_unchanged_witness :
    (fetch_yaml_spec (fun _ => .error "timeout") (fun _ => .ok .null) [] "orders").cache
        = ([] : Cache) ∧
    alookup (fetch_yaml_spec (fun _ => .error "timeout") (fun _ => .ok .null)
        [] "orders").cache "orders" = none :=
  fetch_failure_cache_unchanged (fun _ => .error "timeout") (fun _ => .ok .null)
    [] "orders"
    (.fetchFailed "https://doc.toasttab.com/toast-api-specifications/toast-orders-api.yaml" "timeout")
    rfl

/-- C7 witness: a 73-hit list is cut to its first 50 with a note of 23;
a 2-hit list passes through whole with no note. -/
theorem search_truncation_witness :
    serialize_search (List.replicate 73 { path := "p", key := none, value := Tree.null })
      = ((List.replicate 73 { path := "p", key := none, value := Tree.null }).take 50, some 23) ∧
    serialize_search [{ path := "p", key := none, value := Tree.null },
                      { path := "q", key := none, value := Tree.null }]
      = ([{ path := "p", key := none, value := Tree.null },
          { path := "q", key := none, value := Tree.null }], none) :=
  ⟨(search_truncation _).1 (by simp),
   (search_truncation _).2 (by simp)⟩

/-- C6: on a root mapping whose `paths` entry (when present) is itself a
mapping, `get_toast_endpoint_details` raises `EndpointNotFoundError`
carrying the endpoint path and the spec identifier exactly when `paths`
is absent or the path is not one of its keys, and otherwise returns the
raw sub-tree stored at `paths[path]`, not reshaped into the Endpoint
view. -/
theorem getEndpoint_spec (kvs pkvs : List (String × Tree)) (sn pth : String) :
    (alookup kvs "paths" = none →
      get_endpoint_details (.dict kvs) sn pth
        = .error (.endpointNotFound pth sn)) ∧
    (alookup kvs "paths" = some (.dict pkvs) →
      (alookup pkvs pth = none →
        get_endpoint_details (.dict kvs) sn pth
          = .error (.endpointNotFound pth sn)) ∧
      (∀ v, alookup pkvs pth = some v →
        get_endpoint_details (.dict kvs) sn pth = .ok v)) := by
  constructor
  · intro h
    have hany := (alookup_none_iff_not_anyKey kvs "paths").mp h
    simp only [get_endpoint_details, py_in, hany]
    rfl
  · intro hp
    have hany := alookup_some_any hp
    constructor
    · intro hmiss
      have hany2 := (alookup_none_iff_not_anyKey pkvs pth).mp hmiss
      simp only [get_endpoint_details, py_in, py_index, hany, hp, bind,
                 Except.bind, hany2]
      rfl
    · intro v hv
      have hany2 := alookup_some_any hv
      simp only [get_endpoint_details, py_in, py_index, hany, hp, bind,
                 Except.bind, hany2, hv]
      rfl

/-- C6 witness: a document with one path; looking up the present path
returns its raw sub-tree, looking up a missing path and looking up in a
document without `paths` both raise the not-found error. -/
theorem getEndpoint_spec_witness :
    get_endpoint_details
        (.dict [("paths", .dict [("/v2/reports", .str "detail")])]) "reporting" "/v2/reports"
      = .ok (.str "detail") ∧
    get_endpoint_details
        (.dict [("paths", .dict [("/v2/reports", .str "detail")])]) "reporting" "/missing"
      = .error (.endpointNotFound "/missing" "reporting") ∧
    get_endpoint_details (.dict [("info", .null)]) "reporting" "/v2/reports"
      = .error (.endpointNotFound "/v2/reports" "reporting") :=
  ⟨((getEndpoint_spec [("paths", .dict [("/v2/reports", .str "detail")])]
      [("/v2/reports", .str "detail")] "reporting" "/v2/reports").2 rfl).2
      (.str "detail") rfl,
   ((getEndpoint_spec [("paths", .dict [("/v2/reports", .str "detail")])]
      [("/v2/reports", .str "detail")] "reporting" "/missing").2 rfl).1 rfl,
   (getEndpoint_spec [("info", .null)] [] "reporting" "/v2/reports").1 rfl⟩

/-- C10 counterexample: a non-mapping root does not always make the
`"paths" in spec_data` membership test raise a `TypeError` — on the
string root "hello", Python `in` is a substring test, so
`get_toast_endpoints` returns the tolerant empty list and
`get_toast_endpoint_details` raises the documented not-found error; the
same tolerant empty list results from an empty sequence root. -/
theorem endpoints_string_root_counterexample :
    extract_endpoints (.str "hello") = .ok [] ∧
    get_endpoint_details (.str "hello") "orders" "/p"
      = .error (.endpointNotFound "/p" "orders") ∧
    extract_endpoints (.arr []) = .ok [] := by
  refine ⟨rfl, ?_, rfl⟩
  rfl

/-- C10 (amended): when a successful fetch yields a root that is null, a
boolean or a number (e.g. an empty YAML document parses to None and is
cached), the membership test `"paths" in spec_data` raises a `TypeError`
— not the tolerant empty result, nor one of the documented error kinds —
in both `get_toast_endpoints` and `get_toast_endpoint_details`; the
end-to-end conjuncts show a parser returning None makes
`get_toast_endpoints` fail that way while the None root is cached. For
string and sequence roots Python `in` instead performs a
substring/element search (see the counterexample). -/
theorem endpoints_nonIterable_root (b : Bool) (n : Int) (sn pth : String) :
    extract_endpoints .null
        = .error (.typeError "argument of type \x27NoneType\x27 is not iterable") ∧
    extract_endpoints (.bool b)
        = .error (.typeError "argument of type \x27bool\x27 is not iterable") ∧
    extract_endpoints (.num n)
        = .error (.typeError "argument of type \x27int\x27 is not iterable") ∧
    get_endpoint_details .null sn pth
        = .error (.typeError "argument of type \x27NoneType\x27 is not iterable") ∧
    get_endpoint_details (.bool b) sn pth
        = .error (.typeError "argument of type \x27bool\x27 is not iterable") ∧
    get_endpoint_details (.num n) sn pth
        = .error (.typeError "argument of type \x27int\x27 is not iterable") ∧
    (handle_call_tool (fun _ => .ok "") (fun _ => .ok .null) []
        "get_toast_endpoints" { spec_name := "orders" }).result
        = .error (.typeError "argument of type \x27NoneType\x27 is not iterable") ∧
    alookup (handle_call_tool (fun _ => .ok "") (fun _ => .ok .null) []
        "get_toast_endpoints" { spec_name := "orders" }).cache "orders"
        = some .null :=
  ⟨rfl, rfl, rfl, rfl, rfl, rfl, rfl, rfl⟩

theorem fetch_cache_cases (net : String → Except String String)
    (parse : String → Except String Tree) (cache : Cache) (id : String) :
    (fetch_yaml_spec net parse cache id).cache = cache ∨
    ∃ t, alookup cache id = none ∧ (alookup TOAST_SPECS id).isSome = true ∧
      (fetch_yaml_spec net parse cache id).result = .ok t ∧
      (fetch_yaml_spec net parse cache id).cache = dictInsert cache id t := by
  unfold fetch_yaml_spec
  cases hc : alookup cache id with
  | some t => simp [hc]
  | none =>
    simp only [hc]
    cases hk : alookup TOAST_SPECS id with
    | none => simp [hk]
    | some url =>
      simp only [hk]
      cases hn : net url with
      | error e => simp [hn]
      | ok text =>
        simp only [hn]
        cases hp : parse text with
        | error e => simp [hp]
        | ok tree =>
          simp only [hp]
          right
          exact ⟨tree, trivial, by simp [hk], rfl, rfl⟩

theorem fetch_preserves_inv (net : String → Except String String)
    (parse : String → Except String Tree) (cache : Cache) (id : String)
    (hinv : ∀ k, (alookup cache k).isSome = true →
      (alookup TOAST_SPECS k).isSome = true) :
    ∀ k, (alookup (fetch_yaml_spec net parse cache id).cache k).isSome = true →
      (alookup TOAST_SPECS k).isSome = true := by
  intro k hk
  rcases fetch_cache_cases net parse cache id with h | ⟨t, _, hcat, _, hcache⟩
  · rw [h] at hk
    exact hinv k hk
  · rw [hcache] at hk
    by_cases hek : id = k
    · rw [← hek]
      exact hcat
    · rw [alookup_dictInsert_other cache id k t hek] at hk
      exact hinv k hk

theorem handle_call_tool_cache (net : String → Except String String)
    (parse : String → Except String Tree) (cache : Cache) (nm : String)
    (args : ToolArgs) :
    (handle_call_tool net parse cache nm args).cache = cache ∨
    (handle_call_tool net parse cache nm args).cache
      = (fetch_yaml_spec net parse cache args.spec_name).cache := by
  unfold handle_call_tool
  by_cases h1 : nm = "list_toast_specs"
  · simp [h1]
  by_cases h2 : nm = "get_toast_spec"
  · simp only [h1, h2, if_false, if_true]
    cases hr : (fetch_yaml_spec net parse cache args.spec_name).result <;> simp [hr]
  by_cases h3 : nm = "get_toast_endpoints"
  · simp only [h1, h2, h3, if_false, if_true]
    cases hr : (fetch_yaml_spec net parse cache args.spec_name).result with
    | error e => simp [hr]
    | ok tree =>
      simp only [hr]
      cases he : extract_endpoints tree <;> simp [he]
  by_cases h4 : nm = "get_toast_endpoint_details"
  · simp only [h1, h2, h3, h4, if_false, if_true]
    cases hr : (fetch_yaml_spec net parse cache args.spec_name).result with
    | error e => simp [hr]
    | ok tree =>
      simp only [hr]
      cases he : get_endpoint_details tree args.spec_name args.endpoint_path <;> simp [he]
  by_cases h5 : nm = "search_toast_spec"
  · simp only [h1, h2, h3, h4, h5, if_false, if_true]
    cases hr : (fetch_yaml_spec net parse cache args.spec_name).result <;> simp [hr]
  · simp [h1, h2, h3, h4, h5]

/-- C9: every tool invocation preserves the invariant that each cached
identifier is a catalog key, and the cache changes only when a fetch for
an uncached catalog identifier succeeds, in which case the only change is
inserting that parsed tree under that identifier. -/
theorem cache_catalog_invariant (net : String → Except String String)
    (parse : String → Except String Tree) (cache : Cache) (nm : String)
    (args : ToolArgs)
    (hinv : ∀ k, (alookup cache k).isSome = true →
      (alookup TOAST_SPECS k).isSome = true) :
    (∀ k, (alookup (handle_call_tool net parse cache nm args).cache k).isSome = true →
      (alookup TOAST_SPECS k).isSome = true) ∧
    ((handle_call_tool net parse cache nm args).cache = cache ∨
      ∃ id t, alookup cache id = none ∧ (alookup TOAST_SPECS id).isSome = true ∧
        (fetch_yaml_spec net parse cache id).result = .ok t ∧
        (handle_call_tool net parse cache nm args).cache = dictInsert cache id t) := by
  constructor
  · intro k hk
    rcases handle_call_tool_cache net parse cache nm args with h | h
    · rw [h] at hk
      exact hinv k hk
    · rw [h] at hk
      exact fetch_preserves_inv net parse cache args.spec_name hinv k hk
  · rcases handle_call_tool_cache net parse cache nm args with h | h
    · exact Or.inl h
    · rcases fetch_cache_cases net parse cache args.spec_name with
        hf | ⟨t, hnone, hcat, hres, hins⟩
      · exact Or.inl (h.trans hf)
      · exact Or.inr ⟨args.spec_name, t, hnone, hcat, hres, h.trans hins⟩

/-- C9 witness: starting from the empty cache (trivially inside the
catalog), a `get_toast_spec` call that caches "orders" keeps every cached
key a catalog key. -/
theorem cache_catalog_invariant_witness :
    (alookup TOAST_SPECS "orders").isSome = true :=
  (cache_catalog_invariant (fun _ => .ok "") (fun _ => .ok Tree.null) []
      "get_toast_spec" { spec_name := "orders" }
      (fun k h => by simp [alookup] at h)).1
    "orders" rfl

theorem treeSize_pos (t : Tree) : 1 ≤ treeSize t := by
  cases t <;> simp [treeSize]

theorem treeListSize_pos (ts : List Tree) : 1 ≤ treeListSize ts := by
  cases ts with
  | nil => simp [treeListSize]
  | cons t ts => simp only [treeListSize]; omega

theorem treeDictSize_pos (kvs : List (String × Tree)) : 1 ≤ treeDictSize kvs := by
  cases kvs with
  | nil => simp [treeDictSize]
  | cons kv kvs => cases kv with | mk k v => simp [treeDictSize]; omega

/-- The token stream of a value never starts with a closing bracket. -/
theorem dumps_head (t : Tree) :
    ∃ tok l, dumps t = tok :: l ∧ tok ≠ JTok.rbrack := by
  cases t with
  | null => exact ⟨.jnull, [], rfl, by simp⟩
  | bool b => exact ⟨.jbool b, [], rfl, by simp⟩
  | num n => exact ⟨.jnum n, [], rfl, by simp⟩
  | str s => exact ⟨.jstr s, [], rfl, by simp⟩
  | arr items => exact ⟨.lbrack, dumpsList items ++ [.rbrack], by simp [dumps], by simp⟩
  | dict kvs => exact ⟨.lbrace, dumpsDict kvs ++ [.rbrace], by simp [dumps], by simp⟩

/-- On a stream whose head is not the closing bracket, `parseItems` takes
its value-parsing branch. -/
theorem parseItems_cons (fuel : Nat) (tok : JTok) (l : List JTok)
    (h : tok ≠ JTok.rbrack) :
    parseItems (fuel + 1) (tok :: l)
      = match parseVal fuel (tok :: l) with
        | some (t, .comma :: rest) =>
          match parseItems fuel rest with
          | some (ts, rest2) => some (t :: ts, rest2)
          | none => none
        | some (t, .rbrack :: rest) => some ([t], rest)
        | _ => none := by
  cases tok <;> first | exact absurd rfl h | rfl

/-- Parsing inverts serialization: `parseVal` maps the token stream of a
value (followed by anything) back to that value, given enough fuel;
likewise for item lists before a closing bracket and field lists before a
closing brace. -/
theorem parse_dumps_main : ∀ fuel : Nat,
    (∀ t rest, treeSize t ≤ fuel →
      parseVal fuel (dumps t ++ rest) = some (t, rest)) ∧
    (∀ ts rest, treeListSize ts ≤ fuel →
      parseItems fuel (dumpsList ts ++ .rbrack :: rest) = some (ts, rest)) ∧
    (∀ kvs rest, treeDictSize kvs ≤ fuel →
      parseFields fuel (dumpsDict kvs ++ .rbrace :: rest) = some (kvs, rest)) := by
  intro fuel
  induction fuel with
  | zero =>
    refine ⟨fun t rest h => absurd h (by have := treeSize_pos t; omega),
            fun ts rest h => absurd h (by have := treeListSize_pos ts; omega),
            fun kvs rest h => absurd h (by have := treeDictSize_pos kvs; omega)⟩
  | succ fuel ih =>
    obtain ⟨ihV, ihI, ihF⟩ := ih
    refine ⟨?_, ?_, ?_⟩
    · intro t rest hsz
      cases t with
      | null => rfl
      | bool b => rfl
      | num n => rfl
      | str s => rfl
      | arr items =>
        have hb : treeListSize items ≤ fuel := by
          simp only [treeSize] at hsz; omega
        show parseVal (fuel + 1) ((.lbrack :: dumpsList items ++ [.rbrack]) ++ rest)
          = some (.arr items, rest)
        simp only [List.cons_append, List.append_assoc, List.singleton_append,
                   List.nil_append]
        simp only [parseVal]
        rw [ihI items rest hb]
      | dict kvs =>
        have hb : treeDictSize kvs ≤ fuel := by
          simp only [treeSize] at hsz; omega
        show parseVal (fuel + 1) ((.lbrace :: dumpsDict kvs ++ [.rbrace]) ++ rest)
          = some (.dict kvs, rest)
        simp only [List.cons_append, List.append_assoc, List.singleton_append,
                   List.nil_append]
        simp only [parseVal]
        rw [ihF kvs rest hb]
    · intro ts rest hsz
      cases ts with
      | nil => rfl
      | cons t ts2 =>
        have hbt : treeSize t ≤ fuel := by
          have h1 := treeListSize_pos ts2
          simp only [treeListSize] at hsz; omega
        obtain ⟨tok, l, hd, hnr⟩ := dumps_head t
        cases ts2 with
        | nil =>
          show parseItems (fuel + 1) (dumps t ++ .rbrack :: rest) = some ([t], rest)
          rw [hd, List.cons_append, parseItems_cons fuel tok _ hnr,
              ← List.cons_append, ← hd, ihV t (.rbrack :: rest) hbt]
        | cons t1 ts3 =>
          have hbts : treeListSize (t1 :: ts3) ≤ fuel := by
            simp only [treeListSize] at hsz ⊢; omega
          show parseItems (fuel + 1)
              ((dumps t ++ .comma :: dumpsList (t1 :: ts3)) ++ .rbrack :: rest)
            = some (t :: t1 :: ts3, rest)
          simp only [List.append_assoc, List.cons_append]
          rw [hd, List.cons_append, parseItems_cons fuel tok _ hnr,
              ← List.cons_append, ← hd,
              ihV t (.comma :: (dumpsList (t1 :: ts3) ++ .rbrack :: rest)) hbt]
          show (match parseItems fuel (dumpsList (t1 :: ts3) ++ .rbrack :: rest) with
                | some (ts, rest2) => some (t :: ts, rest2)
                | none => none) = some (t :: t1 :: ts3, rest)
          rw [ihI (t1 :: ts3) rest hbts]
    · intro kvs rest hsz
      cases kvs with
      | nil => rfl
      | cons kv kvs2 =>
        cases kv with
        | mk k v =>
          have hbt : treeSize v ≤ fuel := by
            have h1 := treeDictSize_pos kvs2
            simp only [treeDictSize] at hsz; omega
          cases kvs2 with
          | nil =>
            show parseFields (fuel + 1)
                ((.jstr k :: .colon :: dumps v) ++ .rbrace :: rest)
              = some ([(k, v)], rest)
            simp only [List.cons_append]
            simp only [parseFields]
            rw [ihV v (.rbrace :: rest) hbt]
          | cons kv1 kvs3 =>
            have hbts : treeDictSize (kv1 :: kvs3) ≤ fuel := by
              cases kv1 with
              | mk k1 v1 => simp only [treeDictSize] at hsz ⊢; omega
            show parseFields (fuel + 1)
                ((.jstr k :: .colon :: dumps v ++ .comma :: dumpsDict (kv1 :: kvs3))
                  ++ .rbrace :: rest)
              = some ((k, v) :: kv1 :: kvs3, rest)
            simp only [List.cons_append, List.append_assoc]
            simp only [parseFields]
            rw [ihV v (.comma :: (dumpsDict (kv1 :: kvs3) ++ .rbrace :: rest)) hbt]
            show (match parseFields fuel (dumpsDict (kv1 :: kvs3) ++ .rbrace :: rest) with
                  | some (kvs, rest2) => some ((k, v) :: kvs, rest2)
                  | none => none) = some ((k, v) :: kv1 :: kvs3, rest)
            rw [ihF (kv1 :: kvs3) rest hbts]

/-- C8: when `fetch_yaml_spec(id)` succeeds with tree `t`, the
`get_toast_spec` tool returns exactly the `json.dumps` serialization of
`t`, and parsing that serialization back yields `t` itself, structurally
equal. -/
theorem get_toast_spec_roundtrip (net : String → Except String String)
    (parse : String → Except String Tree) (cache : Cache) (id : String) (t : Tree)
    (h : (fetch_yaml_spec net parse cache id).result = .ok t) :
    (handle_call_tool net parse cache "get_toast_spec" { spec_name := id }).result
        = .ok (.specPayload (dumps t)) ∧
    ∀ fuel, treeSize t ≤ fuel → parseVal fuel (dumps t) = some (t, []) := by
  constructor
  · simp only [handle_call_tool, reduceIte]
    rw [if_neg (by decide : ¬ ("get_toast_spec" = "list_toast_specs"))]
    rw [h]
  · intro fuel hf
    have hmain := (parse_dumps_main fuel).1 t [] hf
    simpa using hmain

/-- C8 witness: a parser stub yielding a one-field mapping; the tool
payload is its token stream and parsing the stream restores the tree. -/
theorem get_toast_spec_roundtrip_witness :
    (handle_call_tool (fun _ => .ok "raw")
        (fun _ => .ok (Tree.dict [("openapi", .str "3.0")])) []
        "get_toast_spec" { spec_name := "orders" }).result
      = .ok (.specPayload (dumps (Tree.dict [("openapi", .str "3.0")]))) ∧
    parseVal 9 (dumps (Tree.dict [("openapi", .str "3.0")]))
      = some (Tree.dict [("openapi", .str "3.0")], []) :=
  ⟨(get_toast_spec_roundtrip (fun _ => .ok "raw")
      (fun _ => .ok (Tree.dict [("openapi", .str "3.0")])) [] "orders"
      (Tree.dict [("openapi", .str "3.0")]) rfl).1,
   (get_toast_spec_roundtrip (fun _ => .ok "raw")
      (fun _ => .ok (Tree.dict [("openapi", .str "3.0")])) [] "orders"
      (Tree.dict [("openapi", .str "3.0")]) rfl).2 9 (by decide)⟩

end ToastMcp
